import Mathlib

/-!
Shallow embedding of the Wavefront OBJ mesh loader `GlUtils::Mesh`
(implementation in the repository's Mesh.cpp translation unit, class layout in
`src/include/utils/GlUtils/Mesh.hpp`), together with theorems checking the
natural-language specification against it.

Modelling conventions:
* C++ `float` values are modelled as real numbers (`ℝ`); `glm::vec3` (glm
  0.9.4, whose default constructor zero-initializes) is modelled as `Vec3`.
* `std::vector<T>` is modelled as `List`.
* The input file is modelled as `Option (List ObjLine)`: `none` stands for a
  path that cannot be opened, `some ls` for an openable file whose lines have
  already been classified by the loader's `line.substr(0,2)` comparisons.
  Each `ObjLine` records the outcome of the `istringstream` token extractions
  the loader performs on that line, following C++11 formatted-extraction
  semantics (the build uses `-std=c++0x`):
  - a successfully extracted numeric token keeps its value;
  - an attempted extraction that fails (missing token, non-numeric token)
    stores `0` and puts the stream in a fail state, which is modelled by
    truncating the token list at the failing token;
  - for `unsigned short`, a numeric token above `65535` stores the clamped
    value `65535` and puts the stream in a fail state;
  - once the stream is in a fail state, later extractions on the same line do
    not touch their variable.  For a `v ` line the `glm::vec3` components were
    zero-initialized, so untouched slots read `0`.  For an `f ` line the
    variables `unsigned short a, b, c` are uninitialized, so the untouched
    slots hold indeterminate values; those are part of the adversarial input
    and are carried by the `fline` constructor as `jb`/`jc` (reduced to the
    16-bit object range).
* Exceptions are modelled with `Except`: `LoadErr.ioError` is the
  `ShaderException` thrown when the file cannot be opened, `LoadErr.outOfRange`
  is the `std::out_of_range` thrown by `std::vector::at` in the normal pass.
  Since the exception escapes `loadFromObjFile`, the loader returns the Mesh
  state it leaves behind in either case.
* A `getline` failure with the stream still good (`badbit` is caught, logged
  and the loop continues) does not alter which lines are processed, so it is
  not modelled; the trailing empty `getline` iteration of the `!in.eof()`
  loop matches no prefix and is a no-op, so it is not modelled either.
-/

/-- Model of `glm::vec3` (glm 0.9.4): three `float` components, as reals. -/
structure Vec3 where
  x : ℝ
  y : ℝ
  z : ℝ

/-- Zero vector `glm::vec3(0.0, 0.0, 0.0)`, also the glm 0.9.4
default-constructed value. -/
def vzero : Vec3 := ⟨0, 0, 0⟩

/-- Componentwise subtraction, `operator-` of `glm::vec3`. -/
def vsub (u v : Vec3) : Vec3 := ⟨u.x - v.x, u.y - v.y, u.z - v.z⟩

/-- Cross product `glm::cross`. -/
def vcross (u v : Vec3) : Vec3 :=
  ⟨u.y * v.z - u.z * v.y, u.z * v.x - u.x * v.z, u.x * v.y - u.y * v.x⟩

/-- Dot product `glm::dot`. -/
def vdot (u v : Vec3) : ℝ := u.x * v.x + u.y * v.y + u.z * v.z

/-- Normalization `glm::normalize`, i.e. `x * inversesqrt(dot(x, x))` in glm
0.9.4, modelled over the reals. -/
noncomputable def vnormalize (v : Vec3) : Vec3 :=
  ⟨v.x / Real.sqrt (vdot v v), v.y / Real.sqrt (vdot v v), v.z / Real.sqrt (vdot v v)⟩

/-- Model of one input line, classified the way `loadFromObjFile` classifies
lines by `line.substr(0,2)`.  `vline toks` is a line starting `"v "` whose
successfully extracted leading float tokens are `toks` (truncated at the first
failing token); `fline toks jb jc` is a line starting `"f "` with leading
numeric tokens `toks` and indeterminate values `jb`, `jc` for the second and
third `unsigned short` variable in case extraction never touches them;
`other` is any other line, which the loader ignores. -/
inductive ObjLine where
  | vline (toks : List ℝ)
  | fline (toks : List ℕ) (jb jc : ℕ)
  | other

/-- Extraction of the three `unsigned short` face indices from an `f ` line,
followed by the `a--; b--; c--;` decrements (16-bit wraparound).  C++11
semantics of `s >> a; s >> b; s >> c;`:
* the first extraction is always attempted: a missing or non-numeric token
  stores `0` (and fails), an over-range token stores the clamp `65535` (and
  fails), an in-range token stores its value;
* a later extraction is attempted only while the stream has not failed;
  if it is skipped the variable keeps its indeterminate value (`jb`, `jc`),
  reduced into the 16-bit object range. -/
def flineIdx (toks : List ℕ) (jb jc : ℕ) : ℕ × ℕ × ℕ :=
  let a := min (toks.getD 0 0) 65535
  let okA : Bool := decide (1 ≤ toks.length) && decide (toks.getD 0 0 ≤ 65535)
  let b := if okA then min (toks.getD 1 0) 65535 else jb % 65536
  let okB : Bool := okA && decide (2 ≤ toks.length) && decide (toks.getD 1 0 ≤ 65535)
  let c := if okB then min (toks.getD 2 0) 65535 else jc % 65536
  ((a + 65535) % 65536, (b + 65535) % 65536, (c + 65535) % 65536)

/-- Extraction of `s >> v.x; s >> v.y; s >> v.z;` from a `v ` line: slots
without a successfully extracted token read `0` (stored by the failed
extraction, or left from the zero-initializing glm constructor). -/
def vecOfToks (toks : List ℝ) : Vec3 := ⟨toks.getD 0 0, toks.getD 1 0, toks.getD 2 0⟩

/-- The line loop of `loadFromObjFile`: returns the `glm_vertices` list and
the `indices` list, in file order. -/
def parseLines : List ObjLine → List Vec3 × List ℕ
  | [] => ([], [])
  | ObjLine.vline toks :: ls =>
      let r := parseLines ls
      (vecOfToks toks :: r.1, r.2)
  | ObjLine.fline toks jb jc :: ls =>
      let r := parseLines ls
      let t := flineIdx toks jb jc
      (r.1, t.1 :: t.2.1 :: t.2.2 :: r.2)
  | ObjLine.other :: ls => parseLines ls

/-- An index triple `(ia, ib, ic)` read by the normal-derivation loop. -/
structure Tri where
  a : ℕ
  b : ℕ
  c : ℕ

/-- Grouping of `indices` into the consecutive triples the loop
`for (i = 0; i < indices.size(); i += 3)` reads (`indices.size()` is always a
multiple of 3, since each `f ` line pushes exactly three indices). -/
def toTriples : List ℕ → List Tri
  | a :: b :: c :: rest => ⟨a, b, c⟩ :: toTriples rest
  | _ => []

/-- The triangle normal the loop computes for one index triple:
`glm::normalize(glm::cross(pos[ib] - pos[ia], pos[ic] - pos[ia]))`. -/
noncomputable def faceNormal (pos : List Vec3) (t : Tri) : Vec3 :=
  vnormalize (vcross (vsub (pos.getD t.b vzero) (pos.getD t.a vzero))
                     (vsub (pos.getD t.c vzero) (pos.getD t.a vzero)))

/-- The normal-derivation loop.  All of `glm_vertices.at(ia)`,
`glm_vertices.at(ib)`, `glm_vertices.at(ic)` are read before any write, so an
out-of-range index throws `std::out_of_range` (modelled by the `false` flag)
before the current triple writes anything; otherwise the single value is
assigned right-to-left to `glm_normals.at(ic)`, `.at(ib)`, `.at(ia)`. -/
noncomputable def normalPass (pos : List Vec3) : List Tri → List Vec3 → Bool × List Vec3
  | [], ns => (true, ns)
  | t :: ts, ns =>
      if t.a < pos.length ∧ t.b < pos.length ∧ t.c < pos.length then
        let nrm := faceNormal pos t
        normalPass pos ts (((ns.set t.c nrm).set t.b nrm).set t.a nrm)
      else
        (false, ns)

/-- Flattening of a `vec3` list into the `x, y, z, x, y, z, ...` float vector
built by the `push_back` loops at the end of `loadFromObjFile`. -/
def flattenVec3 : List Vec3 → List ℝ
  | [] => []
  | v :: vs => v.x :: v.y :: v.z :: flattenVec3 vs

/-- The `GlUtils::Mesh` data members (`Mesh.hpp`). -/
structure Mesh where
  vertices : List ℝ
  normals : List ℝ
  indices : List ℕ
  glm_vertices : List Vec3
  glm_normals : List Vec3

/-- A default-constructed `Mesh` (all member vectors empty). -/
def Mesh.empty : Mesh := ⟨[], [], [], [], []⟩

/-- Exceptions that can escape `loadFromObjFile`: the `ShaderException`
thrown when the file cannot be opened, and the `std::out_of_range` thrown by
`std::vector::at` in the normal-derivation loop. -/
inductive LoadErr where
  | ioError (msg : String)
  | outOfRange

/-- Model of `Mesh::loadFromObjFile`.  The five member vectors are resized to
`0` first; if the file cannot be opened a `ShaderException` whose message
names the file is thrown; otherwise the line loop fills `glm_vertices` and
`indices`, `glm_normals` is sized to `glm_vertices` with zero vectors and the
normal pass runs (an out-of-range index escapes as `std::out_of_range`,
leaving the Mesh as it is at that point); finally the positions and normals
are flattened into `vertices` and `normals` and the glm scratch vectors are
cleared.  The returned pair is (outcome, Mesh state afterwards). -/
noncomputable def loadFromObjFile (prev : Mesh) (objFileName : String)
    (file : Option (List ObjLine)) : Except LoadErr Unit × Mesh :=
  let m0 : Mesh := { prev with vertices := [], normals := [], indices := [],
                               glm_vertices := [], glm_normals := [] }
  match file with
  | none =>
      (Except.error (LoadErr.ioError ("Unable to open .obj file: " ++ objFileName ++ "\n")), m0)
  | some ls =>
      let pv := parseLines ls
      let m1 : Mesh := { m0 with glm_vertices := pv.1, indices := pv.2 }
      let res := normalPass m1.glm_vertices (toTriples m1.indices)
                   (List.replicate m1.glm_vertices.length vzero)
      if res.1 then
        (Except.ok (),
          { vertices := flattenVec3 m1.glm_vertices,
            normals := flattenVec3 res.2,
            indices := m1.indices,
            glm_vertices := [],
            glm_normals := [] })
      else
        (Except.error LoadErr.outOfRange, { m1 with glm_normals := res.2 })

/-- Accessor `Mesh::getNumVertexBytes`: `vertices.size() * sizeof(float)`,
with `sizeof(float) = 4`. -/
def Mesh.getNumVertexBytes (m : Mesh) : ℕ := m.vertices.length * 4

/-- Accessor `Mesh::getNumNormalBytes`: `normals.size() * sizeof(float)`. -/
def Mesh.getNumNormalBytes (m : Mesh) : ℕ := m.normals.length * 4

/-- Accessor `Mesh::getNumIndexBytes`: `indices.size() * sizeof(unsigned short)`,
with `sizeof(unsigned short) = 2`. -/
def Mesh.getNumIndexBytes (m : Mesh) : ℕ := m.indices.length * 2

/-- Accessor `Mesh::getNumVertices`: `(size_t)(vertices.size() / 3.0f)`.
The float division truncates back to the integer quotient, i.e. natural
division by 3 (exact for the sizes a `Mesh` can hold below float precision;
reachable states always have a length divisible by 3). -/
def Mesh.getNumVertices (m : Mesh) : ℕ := m.vertices.length / 3

/-- Accessor `Mesh::getNumNormals`: `(size_t)(normals.size() / 3.0f)`. -/
def Mesh.getNumNormals (m : Mesh) : ℕ := m.normals.length / 3

/-- Accessor `Mesh::getNumIndices`: `indices.size()`. -/
def Mesh.getNumIndices (m : Mesh) : ℕ := m.indices.length

/-- Vertex `i` of a flattened `x, y, z, x, y, z, ...` float buffer. -/
def vecAt (l : List ℝ) (i : ℕ) : Vec3 :=
  ⟨l.getD (3 * i) 0, l.getD (3 * i + 1) 0, l.getD (3 * i + 2) 0⟩

/-- Whether vertex `v` occurs in the index triple `t`. -/
def incidentB (v : ℕ) (t : Tri) : Bool := (t.a == v) || (t.b == v) || (t.c == v)

/-- The last triple of `ts` in which vertex `v` occurs, if any.  This is the
specification-side notion "the triangle whose triple occurs last in
`indices`". -/
def lastIncident (v : ℕ) : List Tri → Option Tri
  | [] => none
  | t :: ts =>
      match lastIncident v ts with
      | some u => some u
      | none => if incidentB v t then some t else none

/-! Helper lemmas. -/

lemma getD_set_self {α : Type} (l : List α) (i : ℕ) (x d : α) (h : i < l.length) :
    (l.set i x).getD i d = x := by
  induction l generalizing i with
  | nil => simp at h
  | cons a l ih =>
      cases i with
      | zero => rfl
      | succ n => simpa using ih n (by simpa using h)

lemma getD_set_ne {α : Type} (l : List α) {i j : ℕ} (x d : α) (h : i ≠ j) :
    (l.set i x).getD j d = l.getD j d := by
  induction l generalizing i j with
  | nil => rfl
  | cons a l ih =>
      cases i with
      | zero =>
          cases j with
          | zero => exact absurd rfl h
          | succ m => rfl
      | succ n =>
          cases j with
          | zero => rfl
          | succ m => simpa using ih (fun hnm => h (by rw [hnm]))

lemma getD_replicate_vzero (n v : ℕ) :
    (List.replicate n vzero).getD v vzero = vzero := by
  induction n generalizing v with
  | zero => rfl
  | succ k ih =>
      cases v with
      | zero => rfl
      | succ w => simp only [List.replicate, List.getD_cons_succ]; exact ih w

lemma flattenVec3_length (l : List Vec3) : (flattenVec3 l).length = 3 * l.length := by
  induction l with
  | nil => rfl
  | cons v vs ih => simp [flattenVec3, ih]; ring

lemma vecAt_flattenVec3 (l : List Vec3) (i : ℕ) (h : i < l.length) :
    vecAt (flattenVec3 l) i = l.getD i vzero := by
  induction l generalizing i with
  | nil => simp at h
  | cons v vs ih =>
      cases i with
      | zero => rfl
      | succ n =>
          have h3 : 3 * (n + 1) = 3 * n + 1 + 1 + 1 := by ring
          have h4 : 3 * (n + 1) + 1 = (3 * n + 1) + 1 + 1 + 1 := by ring
          have h5 : 3 * (n + 1) + 2 = (3 * n + 2) + 1 + 1 + 1 := by ring
          have hn : n < vs.length := by simpa using h
          have := ih n hn
          simp only [vecAt, flattenVec3, h3, h4, h5, List.getD_cons_succ, List.getD_cons_zero] at this ⊢
          exact this

lemma parseLines_idx_mod3 (ls : List ObjLine) : (parseLines ls).2.length % 3 = 0 := by
  induction ls with
  | nil => rfl
  | cons l ls ih =>
      cases l with
      | vline toks => simpa [parseLines] using ih
      | fline toks jb jc =>
          simp only [parseLines, List.length_cons]
          omega
      | other => simpa [parseLines] using ih

lemma normalPass_snd_length (pos : List Vec3) (ts : List Tri) (ns : List Vec3) :
    ((normalPass pos ts ns).2).length = ns.length := by
  induction ts generalizing ns with
  | nil => rfl
  | cons t ts ih =>
      by_cases hc : t.a < pos.length ∧ t.b < pos.length ∧ t.c < pos.length
      · simp only [normalPass, if_pos hc]
        rw [ih]
        simp
      · simp only [normalPass, if_neg hc]

lemma normalPass_get (pos : List Vec3) (ts : List Tri) (ns ns' : List Vec3)
    (hlen : ns.length = pos.length)
    (h : normalPass pos ts ns = (true, ns')) (v : ℕ) :
    ns'.getD v vzero =
      match lastIncident v ts with
      | some t => faceNormal pos t
      | none => ns.getD v vzero := by
  induction ts generalizing ns with
  | nil =>
      simp only [normalPass, Prod.mk.injEq] at h
      rw [← h.2]
      rfl
  | cons t ts ih =>
      by_cases hc : t.a < pos.length ∧ t.b < pos.length ∧ t.c < pos.length
      · simp only [normalPass, if_pos hc] at h
        have hlen' :
            ((((ns.set t.c (faceNormal pos t)).set t.b (faceNormal pos t)).set t.a
              (faceNormal pos t))).length = pos.length := by
          simp [hlen]
        have hrec := ih _ hlen' h
        cases hli : lastIncident v ts with
        | some u =>
            have hcons : lastIncident v (t :: ts) = some u := by
              simp [lastIncident, hli]
            simp only [hli] at hrec
            simp only [hcons]
            exact hrec
        | none =>
            simp only [hli] at hrec
            have hcons : lastIncident v (t :: ts) = if incidentB v t then some t else none := by
              simp [lastIncident, hli]
            by_cases hit : incidentB v t
            · simp only [hcons, if_pos hit]
              rw [hrec]
              have hv : (t.a = v ∨ t.b = v) ∨ t.c = v := by
                simpa [incidentB] using hit
              by_cases hva : t.a = v
              · subst hva
                exact getD_set_self _ _ _ _ (by simp [hlen, hc.1])
              · by_cases hvb : t.b = v
                · subst hvb
                  rw [getD_set_ne _ _ _ hva]
                  exact getD_set_self _ _ _ _ (by simp [hlen, hc.2.1])
                · have hvc : t.c = v := by tauto
                  subst hvc
                  rw [getD_set_ne _ _ _ hva, getD_set_ne _ _ _ hvb]
                  exact getD_set_self _ _ _ _ (by simp [hlen, hc.2.2])
            · simp only [hcons, if_neg hit]
              rw [hrec]
              have hv : ¬ t.a = v ∧ ¬ t.b = v ∧ ¬ t.c = v := by
                constructor
                · intro hx; exact hit (by simp [incidentB, hx])
                constructor
                · intro hx; exact hit (by simp [incidentB, hx])
                · intro hx; exact hit (by simp [incidentB, hx])
              rw [getD_set_ne _ _ _ hv.1, getD_set_ne _ _ _ hv.2.1,
                  getD_set_ne _ _ _ hv.2.2]
      · simp only [normalPass, if_neg hc, Prod.mk.injEq] at h
        exact absurd h.1 Bool.false_ne_true

lemma load_ok_shape {prev : Mesh} {path : String} {ls : List ObjLine} {m : Mesh}
    (h : loadFromObjFile prev path (some ls) = (Except.ok (), m)) :
    ∃ ns', normalPass (parseLines ls).1 (toTriples (parseLines ls).2)
        (List.replicate (parseLines ls).1.length vzero) = (true, ns') ∧
      m = { vertices := flattenVec3 (parseLines ls).1,
            normals := flattenVec3 ns',
            indices := (parseLines ls).2,
            glm_vertices := [],
            glm_normals := [] } := by
  simp only [loadFromObjFile] at h
  rcases hres : normalPass (parseLines ls).1 (toTriples (parseLines ls).2)
      (List.replicate (parseLines ls).1.length vzero) with ⟨ok, ns⟩
  rw [hres] at h
  cases ok with
  | false => simp at h
  | true =>
      simp only [Prod.mk.injEq] at h ⊢
      simp only [show ((true, ns).1 = true) from rfl, if_true, Prod.mk.injEq] at h
      exact ⟨ns, ⟨trivial, rfl⟩, h.2.symm⟩

/-- The specification's single-triangle example file:
`v 0 0 0`, `v 1 0 0`, `v 0 1 0`, `f 1 2 3`. -/
def triLines : List ObjLine :=
  [ObjLine.vline [0, 0, 0], ObjLine.vline [1, 0, 0], ObjLine.vline [0, 1, 0],
   ObjLine.fline [1, 2, 3] 0 0]

/-- Two triangles sharing the edge between vertices 0 and 1, with different
face normals: `f 1 2 3` then `f 1 2 4`. -/
def twoTriLines : List ObjLine :=
  [ObjLine.vline [0, 0, 0], ObjLine.vline [1, 0, 0], ObjLine.vline [0, 1, 0],
   ObjLine.vline [0, 0, 1], ObjLine.fline [1, 2, 3] 0 0, ObjLine.fline [1, 2, 4] 0 0]

/-! Claim theorems. -/

/-- C4 (amended): if the load fails because the file cannot be opened — the
only I/O or parse failure the loader itself raises before touching the file's
content — the Mesh is left in the empty reset state, because the member
vectors are resized to zero before the open check.  (The other failure that
can escape a load, `std::out_of_range` from the normal-derivation pass, is
NOT followed by a reset: see the counterexample.) -/
theorem load_open_failure_resets (prev : Mesh) (path : String) :
    (∃ msg, (loadFromObjFile prev path none).1 = Except.error (LoadErr.ioError msg)) ∧
    (loadFromObjFile prev path none).2 = Mesh.empty :=
  ⟨⟨"Unable to open .obj file: " ++ path ++ "\n", rfl⟩, rfl⟩

/-- C4 counterexample: loading an openable file whose only line is `f 1 2 3`
(no vertices) fails — the normal pass throws `std::out_of_range` — yet the
Mesh afterwards has `indices = [0, 1, 2]`, so a partially populated Mesh IS
observable by the caller after a failed load, contradicting the claim. -/
theorem load_failure_partial_state_cex :
    (loadFromObjFile Mesh.empty "faces_only.obj" (some [ObjLine.fline [1, 2, 3] 0 0])).1 =
        Except.error LoadErr.outOfRange ∧
    (loadFromObjFile Mesh.empty "faces_only.obj" (some [ObjLine.fline [1, 2, 3] 0 0])).2.indices =
        [0, 1, 2] ∧
    (loadFromObjFile Mesh.empty "faces_only.obj" (some [ObjLine.fline [1, 2, 3] 0 0])).2 ≠
        Mesh.empty := by
  refine ⟨rfl, rfl, fun hyp => absurd (congrArg Mesh.indices hyp) ?_⟩
  decide

/-- C5 (amended): a line whose `v `/`f ` remainder does not parse as three
numeric tokens does NOT make the load fail with a parse error — the loader
has no parse-error path at all.  A `v ` line with a single numeric token
loads successfully, storing `0` for the unparsed components; a malformed
`f ` line stores wrapped indices (`0 - 1 = 65535` for failed slots), which
can only surface later as the `std::out_of_range` failure of the normal
pass, not as a parse error. -/
theorem malformed_line_no_parse_error (prev : Mesh) (path : String) (x : ℝ) :
    loadFromObjFile prev path (some [ObjLine.vline [x]]) =
      (Except.ok (), { vertices := [x, 0, 0], normals := [0, 0, 0], indices := [],
                       glm_vertices := [], glm_normals := [] }) ∧
    (loadFromObjFile prev path (some [ObjLine.fline [] 0 0])).1 =
      Except.error LoadErr.outOfRange :=
  ⟨rfl, rfl⟩

/-- C5 counterexample: the claim says a `v ` line whose remainder does not
parse as three numeric tokens makes the load fail with a parse error "rather
than completing successfully"; but loading a file whose only line is a
one-token `v ` line completes successfully. -/
theorem malformed_vline_load_succeeds_cex :
    (loadFromObjFile Mesh.empty "malformed.obj" (some [ObjLine.vline [5]])).1 = Except.ok () ∧
    (loadFromObjFile Mesh.empty "malformed.obj" (some [ObjLine.vline [5]])).2.vertices =
      [5, 0, 0] :=
  ⟨rfl, rfl⟩

/-- C6: loading an unopenable path fails with the `ShaderException` carrying
the message `"Unable to open .obj file: " ++ path ++ "\n"` — which contains
the path — and leaves the Mesh empty: every element count and byte count of
the resulting Mesh is zero. -/
theorem open_failure_io_error_empty (prev : Mesh) (path : String) :
    ∃ msg, loadFromObjFile prev path none = (Except.error (LoadErr.ioError msg), Mesh.empty) ∧
      (∃ pre post, msg = pre ++ path ++ post) ∧
      (loadFromObjFile prev path none).2.getNumVertices = 0 ∧
      (loadFromObjFile prev path none).2.getNumNormals = 0 ∧
      (loadFromObjFile prev path none).2.getNumIndices = 0 ∧
      (loadFromObjFile prev path none).2.getNumVertexBytes = 0 ∧
      (loadFromObjFile prev path none).2.getNumNormalBytes = 0 ∧
      (loadFromObjFile prev path none).2.getNumIndexBytes = 0 :=
  ⟨"Unable to open .obj file: " ++ path ++ "\n", rfl,
   ⟨"Unable to open .obj file: ", "\n", rfl⟩,
   by simp [loadFromObjFile, Mesh.getNumVertices],
   by simp [loadFromObjFile, Mesh.getNumNormals],
   by simp [loadFromObjFile, Mesh.getNumIndices],
   by simp [loadFromObjFile, Mesh.getNumVertexBytes],
   by simp [loadFromObjFile, Mesh.getNumNormalBytes],
   by simp [loadFromObjFile, Mesh.getNumIndexBytes]⟩

/-- C8: loading a second file into a Mesh that already loaded a first file
yields exactly the result of loading the second file into a fresh empty Mesh
(outcome and all members): `loadFromObjFile` resizes every member vector to
zero before reading anything, so nothing of the previous state survives. -/
theorem second_load_no_residue (m1 : Mesh) (p1 p2 : String)
    (f1 f2 : Option (List ObjLine)) :
    loadFromObjFile (loadFromObjFile m1 p1 f1).2 p2 f2 = loadFromObjFile Mesh.empty p2 f2 :=
  rfl

/-- C2: after any successful load, the normals buffer has exactly as many
floats as the vertex buffer (so `getNumNormals = getNumVertices`, i.e.
`len(normals) = len(positions)`), and the number of indices is a multiple
of 3. -/
theorem load_ok_counts (prev : Mesh) (path : String) (file : Option (List ObjLine))
    (m : Mesh) (h : loadFromObjFile prev path file = (Except.ok (), m)) :
    m.normals.length = m.vertices.length ∧
    m.getNumNormals = m.getNumVertices ∧
    m.getNumIndices % 3 = 0 := by
  cases file with
  | none => simp [loadFromObjFile] at h
  | some ls =>
      obtain ⟨ns', hpass, hm⟩ := load_ok_shape h
      have hns'len : ns'.length = (parseLines ls).1.length := by
        have hs := normalPass_snd_length (parseLines ls).1 (toTriples (parseLines ls).2)
          (List.replicate (parseLines ls).1.length vzero)
        rw [hpass] at hs
        simpa using hs
      subst hm
      refine ⟨?_, ?_, ?_⟩
      · simp [flattenVec3_length, hns'len]
      · simp [Mesh.getNumNormals, Mesh.getNumVertices, flattenVec3_length, hns'len]
      · simpa [Mesh.getNumIndices] using parseLines_idx_mod3 ls

/-- C2 witness: the single-triangle file loads successfully and the theorem
applies to it. -/
theorem load_ok_counts_witness :
    (loadFromObjFile Mesh.empty "triangle.obj" (some triLines)).2.normals.length =
        (loadFromObjFile Mesh.empty "triangle.obj" (some triLines)).2.vertices.length ∧
    (loadFromObjFile Mesh.empty "triangle.obj" (some triLines)).2.getNumNormals =
        (loadFromObjFile Mesh.empty "triangle.obj" (some triLines)).2.getNumVertices ∧
    (loadFromObjFile Mesh.empty "triangle.obj" (some triLines)).2.getNumIndices % 3 = 0 :=
  load_ok_counts Mesh.empty "triangle.obj" (some triLines) _ rfl

/-- C1: after any successful load, the normal stored for vertex `v` is
exactly the triangle normal `normalize(cross(pos[b] - pos[a], pos[c] -
pos[a]))` of the LAST index triple `(a, b, c)` of `indices` that contains
`v` — overwrite semantics, not averaging — and the zero vector if no triple
contains `v`. -/
theorem normals_overwrite_last_triangle
    (prev : Mesh) (path : String) (ls : List ObjLine) (m : Mesh)
    (h : loadFromObjFile prev path (some ls) = (Except.ok (), m))
    (v : ℕ) (hv : v < (parseLines ls).1.length) :
    vecAt m.normals v =
      match lastIncident v (toTriples (parseLines ls).2) with
      | some t => faceNormal (parseLines ls).1 t
      | none => vzero := by
  obtain ⟨ns', hpass, hm⟩ := load_ok_shape h
  subst hm
  have hns'len : ns'.length = (parseLines ls).1.length := by
    have hs := normalPass_snd_length (parseLines ls).1 (toTriples (parseLines ls).2)
      (List.replicate (parseLines ls).1.length vzero)
    rw [hpass] at hs
    simpa using hs
  have hflat : vecAt (flattenVec3 ns') v = ns'.getD v vzero :=
    vecAt_flattenVec3 ns' v (by rw [hns'len]; exact hv)
  have hget := normalPass_get (parseLines ls).1 (toTriples (parseLines ls).2)
    (List.replicate (parseLines ls).1.length vzero) ns' (by simp) hpass v
  show vecAt (flattenVec3 ns') v = _
  rw [hflat, hget]
  cases hli : lastIncident v (toTriples (parseLines ls).2) with
  | some t => simp
  | none => simp [getD_replicate_vzero]

/-- C1 witness: the two-triangle file (triangles `(0,1,2)` and `(0,1,3)`
share vertices 0 and 1) loads successfully and the theorem applies to shared
vertex 0, whose final normal is the face normal of the LAST triple containing
it. -/
theorem normals_overwrite_last_triangle_witness :
    0 < (parseLines twoTriLines).1.length ∧
    vecAt (loadFromObjFile Mesh.empty "two_triangles.obj" (some twoTriLines)).2.normals 0 =
      (match lastIncident 0 (toTriples (parseLines twoTriLines).2) with
        | some t => faceNormal (parseLines twoTriLines).1 t
        | none => vzero) :=
  ⟨by decide,
   normals_overwrite_last_triangle Mesh.empty "two_triangles.obj" twoTriLines _ rfl 0 (by decide)⟩

/-- C7: loading the file `v 0 0 0` / `v 1 0 0` / `v 0 1 0` / `f 1 2 3`
succeeds and yields exactly the three positions `(0,0,0), (1,0,0), (0,1,0)`
(flattened), three normals each equal to `(0,0,1)` (flattened), and the index
sequence `[0, 1, 2]`. -/
theorem single_triangle_load :
    loadFromObjFile Mesh.empty "triangle.obj" (some triLines) =
      (Except.ok (),
        { vertices := [0, 0, 0, 1, 0, 0, 0, 1, 0],
          normals := [0, 0, 1, 0, 0, 1, 0, 0, 1],
          indices := [0, 1, 2],
          glm_vertices := [], glm_normals := [] }) ∧
    (loadFromObjFile Mesh.empty "triangle.obj" (some triLines)).2.getNumVertices = 3 ∧
    (loadFromObjFile Mesh.empty "triangle.obj" (some triLines)).2.getNumNormals = 3 ∧
    (loadFromObjFile Mesh.empty "triangle.obj" (some triLines)).2.getNumIndices = 3 := by
  have hface : faceNormal (parseLines triLines).1 ⟨0, 1, 2⟩ = (⟨0, 0, 1⟩ : Vec3) := by
    simp only [faceNormal, parseLines, vecOfToks, triLines, vsub, vcross, vdot, vnormalize,
      List.getD_cons_zero, List.getD_cons_succ, vzero]
    norm_num [Real.sqrt_one]
  have h1 :
      loadFromObjFile Mesh.empty "triangle.obj" (some triLines) =
        (Except.ok (),
          { vertices := [0, 0, 0, 1, 0, 0, 0, 1, 0],
            normals := flattenVec3 [faceNormal (parseLines triLines).1 ⟨0, 1, 2⟩,
                                    faceNormal (parseLines triLines).1 ⟨0, 1, 2⟩,
                                    faceNormal (parseLines triLines).1 ⟨0, 1, 2⟩],
            indices := [0, 1, 2],
            glm_vertices := [], glm_normals := [] }) := rfl
  rw [hface] at h1
  exact ⟨h1, by decide, by decide, by decide⟩
